import Mathlib

/-!
Verification of the DataBreachAnalytics filtering-and-aggregation pipeline.

The definitions below are a shallow embedding of the data handling logic of
`Home.py`, `app.py`, `pages/1_Timeline_Analysis.py` and
`pages/2_Data_Classes_Analysis.py`:

* `BreachRecord` models one row of the loaded dataframe after `load_data`
  (dates are modelled as integer day ordinals; `BreachYear` is the derived
  year column computed at load time).
* `sizeCategory` models `pd.cut(df['PwnCount'], bins=[0, 10000, 1000000,
  50000000, inf], labels=[...])`: half-open `(lo, hi]` bins, values outside
  every bin (here `PwnCount = 0`) yield `NaN`, modelled as `none`.
* `explodeClasses` models `df.explode('DataClasses')`; a record whose list is
  empty contributes a single row whose class cell is `NaN` (`none`), exactly
  as pandas `explode` does.
* The filter pipeline (`dateFilter`, `verificationFilter`,
  `sensitivityFilter`, `sizeFilter`, `dataClassFilter`, composed in
  `filteredRecords`) mirrors the sidebar filter code of `app.py`
  lines 151-212 branch for branch.
* `tally`/`sortDesc`/`countBy` model `Series.value_counts()`: grouping in
  first-encounter order followed by a stable sort descending by count
  (`NaN` cells are dropped first, as `value_counts` drops them).
* The severity block models `app.py` lines 467-498, the insight block models
  `Home.py` lines 310-332 and `app.py` lines 684-699, and the search block
  models `app.py` lines 717-735.

Python code that raises on some input (e.g. `DataFrame.iloc[0]` on an empty
frame, `Series.idxmax` on an empty series, `.astype(int)` on a categorical
containing `NaN`) is modelled as an `Option`-valued function returning
`none` on that input.
-/

namespace DataBreach

/-- One row of the loaded breach dataframe, after the derived columns
(`BreachYear`, `BreachSizeCategory`) have been computed by `load_data`.
Dates are integer day ordinals; only their order matters to the filters. -/
structure BreachRecord where
  name : String
  domain : String
  breachDate : Int
  addedDate : Int
  pwnCount : Nat
  isVerified : Bool
  isSensitive : Bool
  breachYear : Int
  dataClasses : List String
deriving DecidableEq, Repr

/-- The `BreachSizeCategory` column: `pd.cut(PwnCount, bins=[0, 10000,
1000000, 50000000, inf], labels=['Small (<10k)', 'Medium (10k-1M)',
'Large (1M-50M)', 'Massive (>50M)'])`.  `pd.cut` uses half-open `(lo, hi]`
bins, so a `PwnCount` of exactly `0` falls outside every bin and the cell is
`NaN`, modelled as `none`. -/
def sizeCategory (pwnCount : Nat) : Option String :=
  if pwnCount = 0 then none
  else if pwnCount ≤ 10000 then some "Small (<10k)"
  else if pwnCount ≤ 1000000 then some "Medium (10k-1M)"
  else if pwnCount ≤ 50000000 then some "Large (1M-50M)"
  else some "Massive (>50M)"

/-- C5: `sizeCategory` is a pure function of `pwnCount` bucketed by the
half-open intervals `(0,10000] -> Small`, `(10000,1000000] -> Medium`,
`(1000000,50000000] -> Large`, `(50000000,∞) -> Massive`, and a `pwnCount`
of exactly `0` falls outside all four bins (no defined category). -/
theorem sizeCategory_bucket_edges (n : Nat) :
    (sizeCategory n = some "Small (<10k)" ↔ 0 < n ∧ n ≤ 10000) ∧
    (sizeCategory n = some "Medium (10k-1M)" ↔ 10000 < n ∧ n ≤ 1000000) ∧
    (sizeCategory n = some "Large (1M-50M)" ↔ 1000000 < n ∧ n ≤ 50000000) ∧
    (sizeCategory n = some "Massive (>50M)" ↔ 50000000 < n) ∧
    sizeCategory 0 = none := by
  unfold sizeCategory
  refine ⟨?_, ?_, ?_, ?_, by simp⟩ <;>
    · split_ifs <;> simp_all <;> omega

/-- Witness for C5: a record with 5000 affected accounts is `Small (<10k)`,
obtained by instantiating `sizeCategory_bucket_edges` at `5000`. -/
theorem sizeCategory_bucket_edges_witness :
    sizeCategory 5000 = some "Small (<10k)" :=
  (sizeCategory_bucket_edges 5000).1.mpr ⟨by decide, by decide⟩

/-- Insert `p` into a list sorted descending by `key`, after every element
whose key is at least `key p`.  Building a sort from this insertion gives the
stable descending sort performed by `Series.value_counts()` (group counts
sorted descending, ties kept in order of appearance) and by
`DataFrame.nlargest` with the default `keep='first'`. -/
def insDesc {α : Type} (key : α → Nat) (p : α) : List α → List α
  | [] => [p]
  | q :: rest => if key p ≤ key q then q :: insDesc key p rest else p :: q :: rest

/-- Stable sort, descending by `key`: insert the elements one by one in
their original order. -/
def sortDesc {α : Type} (key : α → Nat) (l : List α) : List α :=
  l.foldl (fun acc p => insDesc key p acc) []

theorem mem_insDesc {α : Type} (key : α → Nat) (p a : α) :
    ∀ l : List α, a ∈ insDesc key p l ↔ a = p ∨ a ∈ l := by
  intro l
  induction l with
  | nil => simp [insDesc]
  | cons q rest ih =>
    simp only [insDesc]
    split
    · simp only [List.mem_cons, ih]
      tauto
    · simp only [List.mem_cons]

theorem pairwise_insDesc {α : Type} (key : α → Nat) (p : α) :
    ∀ l : List α, List.Pairwise (fun a b => key b ≤ key a) l →
      List.Pairwise (fun a b => key b ≤ key a) (insDesc key p l) := by
  intro l
  induction l with
  | nil => intro _; simp [insDesc]
  | cons q rest ih =>
    intro h
    rw [List.pairwise_cons] at h
    obtain ⟨hq, hrest⟩ := h
    simp only [insDesc]
    split
    · rename_i hle
      rw [List.pairwise_cons]
      refine ⟨fun b hb => ?_, ih hrest⟩
      rcases (mem_insDesc key p b rest).1 hb with hb | hb
      · subst hb; exact hle
      · exact hq b hb
    · rename_i hgt
      push_neg at hgt
      rw [List.pairwise_cons]
      refine ⟨fun b hb => ?_, List.Pairwise.cons hq hrest⟩
      rcases List.mem_cons.mp hb with hb | hb
      · subst hb; exact le_of_lt hgt
      · exact le_trans (hq b hb) (le_of_lt hgt)

theorem filter_key_eq_nil {α : Type} (key : α → Nat) (n : Nat) (l : List α)
    (h : ∀ a ∈ l, key a < n) : l.filter (fun a => key a == n) = [] := by
  rw [List.filter_eq_nil_iff]
  intro a ha
  simp only [beq_iff_eq]
  exact Nat.ne_of_lt (h a ha)

theorem filter_insDesc {α : Type} (key : α → Nat) (p : α) (n : Nat) :
    ∀ l : List α, List.Pairwise (fun a b => key b ≤ key a) l →
      (insDesc key p l).filter (fun a => key a == n) =
        if key p = n then l.filter (fun a => key a == n) ++ [p]
        else l.filter (fun a => key a == n) := by
  intro l
  induction l with
  | nil =>
    intro _
    by_cases hn : key p = n <;> simp [insDesc, List.filter_cons, beq_iff_eq, hn]
  | cons q rest ih =>
    intro hp
    rw [List.pairwise_cons] at hp
    obtain ⟨hq, hrest⟩ := hp
    simp only [insDesc]
    split
    · rename_i hle
      by_cases hn : key p = n <;> by_cases hqn : key q = n <;>
        simp [List.filter_cons, hn, hqn, ih hrest]
    · rename_i hgt
      push_neg at hgt
      by_cases hn : key p = n
      · have hnil : (q :: rest).filter (fun a => key a == n) = [] := by
          refine filter_key_eq_nil key n _ (fun a ha => ?_)
          rcases List.mem_cons.mp ha with ha | ha
          · subst ha; omega
          · have := hq a ha; omega
        simp [List.filter_cons, hn, hnil]
      · simp [List.filter_cons, hn]

theorem pairwise_sortAux {α : Type} (key : α → Nat) :
    ∀ (l acc : List α), List.Pairwise (fun a b => key b ≤ key a) acc →
      List.Pairwise (fun a b => key b ≤ key a)
        (l.foldl (fun acc p => insDesc key p acc) acc) := by
  intro l
  induction l with
  | nil => intro acc h; exact h
  | cons p rest ih =>
    intro acc h
    exact ih (insDesc key p acc) (pairwise_insDesc key p acc h)

/-- The result of `sortDesc` is sorted descending by `key`. -/
theorem pairwise_sortDesc {α : Type} (key : α → Nat) (l : List α) :
    List.Pairwise (fun a b => key b ≤ key a) (sortDesc key l) :=
  pairwise_sortAux key l [] List.Pairwise.nil

theorem filter_sortAux {α : Type} (key : α → Nat) (n : Nat) :
    ∀ (l acc : List α), List.Pairwise (fun a b => key b ≤ key a) acc →
      (l.foldl (fun acc p => insDesc key p acc) acc).filter (fun a => key a == n) =
        acc.filter (fun a => key a == n) ++ l.filter (fun a => key a == n) := by
  intro l
  induction l with
  | nil => intro acc _; simp
  | cons p rest ih =>
    intro acc h
    have step := ih (insDesc key p acc) (pairwise_insDesc key p acc h)
    rw [List.foldl_cons, step, filter_insDesc key p n acc h]
    by_cases hn : key p = n <;>
      simp [List.filter_cons, beq_iff_eq, hn]

/-- Stability of `sortDesc`: for each key value `n`, the elements whose key
is `n` appear in the sorted output in exactly the order they had in the
input. -/
theorem filter_sortDesc {α : Type} (key : α → Nat) (n : Nat) (l : List α) :
    (sortDesc key l).filter (fun a => key a == n) =
      l.filter (fun a => key a == n) := by
  have h := filter_sortAux key n l [] List.Pairwise.nil
  simpa [sortDesc] using h

theorem mem_sortAux {α : Type} (key : α → Nat) (a : α) :
    ∀ (l acc : List α),
      a ∈ l.foldl (fun acc p => insDesc key p acc) acc ↔ a ∈ acc ∨ a ∈ l := by
  intro l
  induction l with
  | nil => intro acc; simp
  | cons p rest ih =>
    intro acc
    rw [List.foldl_cons, ih (insDesc key p acc)]
    rw [mem_insDesc key p a acc]
    simp only [List.mem_cons]
    tauto

/-- `sortDesc` permutes its input: membership is preserved. -/
theorem mem_sortDesc {α : Type} (key : α → Nat) (a : α) (l : List α) :
    a ∈ sortDesc key l ↔ a ∈ l := by
  have h := mem_sortAux key a l []
  simpa [sortDesc] using h

/-- One step of the grouping performed by `Series.value_counts()`: increment
the count of key `x`, or append `(x, 1)` at the end when `x` has not been
seen yet.  New keys are appended at the end, so the table stays in
first-encounter order. -/
def bump : List (String × Nat) → String → List (String × Nat)
  | [], x => [(x, 1)]
  | (k, n) :: rest, x =>
      if k = x then (k, n + 1) :: rest else (k, n) :: bump rest x

/-- Frequency table of a list of strings, in first-encounter order of the
keys (the hashtable pass of `Series.value_counts()` before sorting). -/
def tally (xs : List String) : List (String × Nat) :=
  xs.foldl bump []

/-- `Series.value_counts()`: frequency table sorted descending by count,
ties kept in first-encounter order. -/
def countBy (xs : List String) : List (String × Nat) :=
  sortDesc Prod.snd (tally xs)

theorem bump_pos (x : String) :
    ∀ acc : List (String × Nat), (∀ p ∈ acc, 1 ≤ p.2) →
      ∀ p ∈ bump acc x, 1 ≤ p.2 := by
  intro acc
  induction acc with
  | nil =>
    intro _ p hp
    simp only [bump, List.mem_singleton] at hp
    subst hp; exact le_refl 1
  | cons q rest ih =>
    intro h p hp
    obtain ⟨k, n⟩ := q
    simp only [bump] at hp
    split at hp
    · rcases List.mem_cons.mp hp with hp | hp
      · subst hp; simp
      · exact h p (List.mem_cons_of_mem _ hp)
    · rcases List.mem_cons.mp hp with hp | hp
      · subst hp; exact h (k, n) (List.mem_cons_self _ _)
      · exact ih (fun r hr => h r (List.mem_cons_of_mem _ hr)) p hp

theorem tally_aux_pos :
    ∀ (xs : List String) (acc : List (String × Nat)), (∀ p ∈ acc, 1 ≤ p.2) →
      ∀ p ∈ xs.foldl bump acc, 1 ≤ p.2 := by
  intro xs
  induction xs with
  | nil => intro acc h; exact h
  | cons x rest ih =>
    intro acc h
    exact ih (bump acc x) (bump_pos x acc h)

/-- Every count in the frequency table is at least 1. -/
theorem tally_pos (xs : List String) : ∀ p ∈ tally xs, 1 ≤ p.2 :=
  tally_aux_pos xs [] (by simp)

theorem countBy_pos (xs : List String) : ∀ p ∈ countBy xs, 1 ≤ p.2 :=
  fun p hp => tally_pos xs p ((mem_sortDesc Prod.snd p (tally xs)).1 hp)

/-- C7: `countBy` returns its frequency table sorted descending by count
with ties broken by first-encountered order in the source sequence (`tally`
is the table in first-encounter order, and for every count value the
restriction of the sorted output to that count equals the restriction of
`tally`); in particular, for the input sequence `[A,A,B,B,B,C]` it returns
exactly `[(B,3),(A,2),(C,1)]`. -/
theorem countBy_desc_stable :
    (∀ xs : List String,
      List.Pairwise (fun p q => q.2 ≤ p.2) (countBy xs)) ∧
    (∀ (xs : List String) (n : Nat),
      (countBy xs).filter (fun p => p.2 == n) =
        (tally xs).filter (fun p => p.2 == n)) ∧
    countBy ["A", "A", "B", "B", "B", "C"] = [("B", 3), ("A", 2), ("C", 1)] := by
  refine ⟨?_, ?_, ?_⟩
  · intro xs
    exact pairwise_sortDesc Prod.snd (tally xs)
  · intro xs n
    exact filter_sortDesc Prod.snd n (tally xs)
  · rfl

/-- One exploded (record, data class) row produced for a single record by
`df.explode('DataClasses')`: one row per element of `DataClasses`, or a
single row with a `NaN` class cell (`none`) when the list is empty. -/
def recordRows (r : BreachRecord) : List (BreachRecord × Option String) :=
  match r.dataClasses with
  | [] => [(r, none)]
  | cs => cs.map (fun c => (r, some c))

/-- The `data_classes_df` view: `df.explode('DataClasses')`. -/
def explodeClasses (rs : List BreachRecord) : List (BreachRecord × Option String) :=
  (rs.map recordRows).flatten

/-- The sidebar filter state, one field per widget.  An empty list models an
empty multiselect.  The search box is not part of the record filter
pipeline in the source (search is a separate view computed at the bottom of
`app.py`), so it is passed separately to `searchResults`. -/
structure FilterCriteria where
  startDate : Int
  endDate : Int
  verification : List String
  sensitivity : List String
  sizeCategories : List (Option String)
  dataClasses : List String
deriving DecidableEq, Repr

/-- Date range filter: `(df['BreachDate'].dt.date >= start_date) &
(df['BreachDate'].dt.date <= end_date)`, inclusive on both ends. -/
def dateFilter (c : FilterCriteria) (rs : List BreachRecord) : List BreachRecord :=
  rs.filter (fun r => decide (c.startDate ≤ r.breachDate) && decide (r.breachDate ≤ c.endDate))

/-- Verification filter: `if verification_status:` (empty selection skips
the filter entirely), both labels selected keeps all records, a single
label keeps the records whose `IsVerified` matches it; a non-empty
selection containing neither label falls through every branch and keeps
all records. -/
def verificationFilter (sel : List String) (rs : List BreachRecord) : List BreachRecord :=
  if sel = [] then rs
  else if "Verified" ∈ sel ∧ "Unverified" ∈ sel then rs
  else if "Verified" ∈ sel then rs.filter (fun r => r.isVerified)
  else if "Unverified" ∈ sel then rs.filter (fun r => !r.isVerified)
  else rs

/-- Sensitivity filter, same branch structure as the verification filter
against the `IsSensitive` column. -/
def sensitivityFilter (sel : List String) (rs : List BreachRecord) : List BreachRecord :=
  if sel = [] then rs
  else if "Sensitive" ∈ sel ∧ "Non-Sensitive" ∈ sel then rs
  else if "Sensitive" ∈ sel then rs.filter (fun r => r.isSensitive)
  else if "Non-Sensitive" ∈ sel then rs.filter (fun r => !r.isSensitive)
  else rs

/-- Breach size filter: `if breach_size:` then
`filtered_df['BreachSizeCategory'].isin(breach_size)`.  The selection holds
`Option String` values because the categorical column may contain `NaN`
(and `unique()`, used for the widget default, keeps `NaN`). -/
def sizeFilter (sel : List (Option String)) (rs : List BreachRecord) : List BreachRecord :=
  if sel = [] then rs
  else rs.filter (fun r => decide (sizeCategory r.pwnCount ∈ sel))

/-- Data class filter (OR semantics): `if selected_data_classes:` then keep
records whose `Name` appears among the exploded rows whose class cell is in
the selection (`isin` is false on a `NaN` cell). -/
def dataClassFilter (classRows : List (BreachRecord × Option String)) (sel : List String)
    (rs : List BreachRecord) : List BreachRecord :=
  if sel = [] then rs
  else
    rs.filter (fun r =>
      decide (r.name ∈ (classRows.filter (fun p =>
        match p.2 with
        | some cl => decide (cl ∈ sel)
        | none => false)).map (fun p => p.1.name)))

/-- The complete sidebar pipeline of `app.py` lines 151-209: date range,
verification, sensitivity, breach size, then data classes, each applied to
the output of the previous one. -/
def filteredRecords (rs : List BreachRecord) (c : FilterCriteria) : List BreachRecord :=
  dataClassFilter (explodeClasses rs) c.dataClasses
    (sizeFilter c.sizeCategories
      (sensitivityFilter c.sensitivity
        (verificationFilter c.verification
          (dateFilter c rs))))

/-- The derived class-row view of the filtered set (`app.py` line 212):
`data_classes_df[data_classes_df['Name'].isin(filtered_df['Name'])]`. -/
def filteredClassRows (rs : List BreachRecord) (c : FilterCriteria) :
    List (BreachRecord × Option String) :=
  (explodeClasses rs).filter
    (fun p => decide (p.1.name ∈ (filteredRecords rs c).map (fun r => r.name)))

theorem mem_of_mem_dateFilter {c : FilterCriteria} {rs : List BreachRecord}
    {r : BreachRecord} (h : r ∈ dateFilter c rs) : r ∈ rs :=
  List.mem_of_mem_filter h

theorem mem_of_mem_verificationFilter {sel : List String} {rs : List BreachRecord}
    {r : BreachRecord} (h : r ∈ verificationFilter sel rs) : r ∈ rs := by
  unfold verificationFilter at h
  split at h
  · exact h
  split at h
  · exact h
  split at h
  · exact List.mem_of_mem_filter h
  split at h
  · exact List.mem_of_mem_filter h
  · exact h

theorem mem_of_mem_sensitivityFilter {sel : List String} {rs : List BreachRecord}
    {r : BreachRecord} (h : r ∈ sensitivityFilter sel rs) : r ∈ rs := by
  unfold sensitivityFilter at h
  split at h
  · exact h
  split at h
  · exact h
  split at h
  · exact List.mem_of_mem_filter h
  split at h
  · exact List.mem_of_mem_filter h
  · exact h

theorem mem_of_mem_sizeFilter {sel : List (Option String)} {rs : List BreachRecord}
    {r : BreachRecord} (h : r ∈ sizeFilter sel rs) : r ∈ rs := by
  unfold sizeFilter at h
  split at h
  · exact h
  · exact List.mem_of_mem_filter h

theorem mem_of_mem_dataClassFilter {classRows : List (BreachRecord × Option String)}
    {sel : List String} {rs : List BreachRecord}
    {r : BreachRecord} (h : r ∈ dataClassFilter classRows sel rs) : r ∈ rs := by
  unfold dataClassFilter at h
  split at h
  · exact h
  · exact List.mem_of_mem_filter h

/-- Filtering only ever narrows the record set: every filtered record is a
record of the store. -/
theorem mem_of_mem_filteredRecords {rs : List BreachRecord} {c : FilterCriteria}
    {r : BreachRecord} (h : r ∈ filteredRecords rs c) : r ∈ rs :=
  mem_of_mem_dateFilter
    (mem_of_mem_verificationFilter
      (mem_of_mem_sensitivityFilter
        (mem_of_mem_sizeFilter
          (mem_of_mem_dataClassFilter h))))

/-- C6: a `FilterCriteria` whose selections are all at their defaults —
a date range covering every record, both verification labels or none,
both sensitivity labels or none, a size selection containing every
record's category (the widget default, `unique()` of the column) or none,
and no data classes — leaves the record sequence unchanged. -/
theorem default_filter_identity (rs : List BreachRecord) (c : FilterCriteria)
    (hdate : ∀ r ∈ rs, c.startDate ≤ r.breachDate ∧ r.breachDate ≤ c.endDate)
    (hver : c.verification = [] ∨
      ("Verified" ∈ c.verification ∧ "Unverified" ∈ c.verification))
    (hsen : c.sensitivity = [] ∨
      ("Sensitive" ∈ c.sensitivity ∧ "Non-Sensitive" ∈ c.sensitivity))
    (hsize : c.sizeCategories = [] ∨
      ∀ r ∈ rs, sizeCategory r.pwnCount ∈ c.sizeCategories)
    (hdc : c.dataClasses = []) :
    filteredRecords rs c = rs := by
  have hd : dateFilter c rs = rs := by
    unfold dateFilter
    rw [List.filter_eq_self]
    intro r hr
    have := hdate r hr
    simp [this.1, this.2]
  have hv : verificationFilter c.verification rs = rs := by
    unfold verificationFilter
    rcases hver with h | h
    · simp [h]
    · rw [if_neg, if_pos h]
      intro he
      rw [he] at h
      exact List.not_mem_nil _ h.1
  have hs : sensitivityFilter c.sensitivity rs = rs := by
    unfold sensitivityFilter
    rcases hsen with h | h
    · simp [h]
    · rw [if_neg, if_pos h]
      intro he
      rw [he] at h
      exact List.not_mem_nil _ h.1
  have hz : sizeFilter c.sizeCategories rs = rs := by
    unfold sizeFilter
    rcases hsize with h | h
    · simp [h]
    · split
      · rfl
      · rw [List.filter_eq_self]
        intro r hr
        simp [h r hr]
  have hc : dataClassFilter (explodeClasses rs) c.dataClasses rs = rs := by
    unfold dataClassFilter
    simp [hdc]
  rw [filteredRecords, hd, hv, hs, hz, hc]

/-- Sample store record: a small verified non-sensitive breach. -/
def recA : BreachRecord :=
  { name := "Adobe"
    domain := "adobe.com"
    breachDate := 100
    addedDate := 120
    pwnCount := 5000
    isVerified := true
    isSensitive := false
    breachYear := 2013
    dataClasses := ["Email addresses"] }

/-- Sample store record: a medium unverified sensitive breach. -/
def recB : BreachRecord :=
  { name := "Bfield"
    domain := "bfield.org"
    breachDate := 200
    addedDate := 210
    pwnCount := 2000000
    isVerified := false
    isSensitive := true
    breachYear := 2020
    dataClasses := ["Passwords", "Email addresses"] }

/-- Sample criteria with every widget at its default: full date range, both
verification labels, both sensitivity labels, every size category present
in the store, no data classes. -/
def defaultCriteria : FilterCriteria :=
  { startDate := 0
    endDate := 1000
    verification := ["Verified", "Unverified"]
    sensitivity := ["Sensitive", "Non-Sensitive"]
    sizeCategories := [some "Small (<10k)", some "Medium (10k-1M)",
      some "Large (1M-50M)", some "Massive (>50M)"]
    dataClasses := [] }

/-- Witness for C6: `default_filter_identity` applied to the two-record
store and the default criteria. -/
theorem default_filter_identity_witness :
    filteredRecords [recA, recB] defaultCriteria = [recA, recB] :=
  default_filter_identity [recA, recB] defaultCriteria
    (by decide) (by decide) (by decide) (by decide) rfl

theorem mem_recordRows_of_ne {r : BreachRecord} {c0 : String} {cs : List String}
    (hcs : r.dataClasses = c0 :: cs) : (r, some c0) ∈ recordRows r := by
  have hrw : recordRows r = (c0 :: cs).map (fun c => (r, some c)) := by
    unfold recordRows
    rw [hcs]
  rw [hrw]
  exact List.mem_map_of_mem _ (List.mem_cons_self c0 cs)

theorem mem_explodeClasses_of_mem {rs : List BreachRecord} {r : BreachRecord}
    {c0 : String} {cs : List String} (hr : r ∈ rs) (hcs : r.dataClasses = c0 :: cs) :
    (r, some c0) ∈ explodeClasses rs := by
  unfold explodeClasses
  rw [List.mem_flatten]
  exact ⟨recordRows r, List.mem_map_of_mem recordRows hr, mem_recordRows_of_ne hcs⟩

/-- C8: the filtered class-row view derived by membership satisfies the
round-trip property.  Every name occurring in the filtered class rows also
occurs in the filtered records, and every filtered record with a non-empty
`dataClasses` sequence contributes at least one row to the filtered class
rows. -/
theorem classRows_roundTrip (rs : List BreachRecord) (c : FilterCriteria) :
    (∀ p ∈ filteredClassRows rs c,
      p.1.name ∈ (filteredRecords rs c).map (fun r => r.name)) ∧
    (∀ r ∈ filteredRecords rs c, r.dataClasses ≠ [] →
      ∃ p ∈ filteredClassRows rs c, p.1.name = r.name) := by
  constructor
  · intro p hp
    unfold filteredClassRows at hp
    have := List.of_mem_filter hp
    exact of_decide_eq_true this
  · intro r hr hne
    obtain ⟨c0, cs, hcs⟩ := List.exists_cons_of_ne_nil hne
    refine ⟨(r, some c0), ?_, rfl⟩
    unfold filteredClassRows
    rw [List.mem_filter]
    refine ⟨mem_explodeClasses_of_mem (mem_of_mem_filteredRecords hr) hcs, ?_⟩
    exact decide_eq_true (List.mem_map_of_mem (fun x => x.name) hr)

/-- Witness for C8: in the two-record store under default criteria, the
record `recB` (whose class list is non-empty) contributes a row to the
filtered class-row view. -/
theorem classRows_roundTrip_witness :
    ∃ p ∈ filteredClassRows [recA, recB] defaultCriteria, p.1.name = recB.name :=
  (classRows_roundTrip [recA, recB] defaultCriteria).2 recB (by decide) (by decide)

/-- Count of filtered records with `BreachYear >= current_year - 2`
(`recent_count` in the insight code of both `Home.py` and `app.py`). -/
def recentCount (rs : List BreachRecord) (currentYear : Int) : Nat :=
  (rs.filter (fun r => decide (currentYear - 2 ≤ r.breachYear))).length

/-- Count of filtered records with `BreachYear` in
`[current_year - 4, current_year - 2)` (`previous_count`). -/
def previousCount (rs : List BreachRecord) (currentYear : Int) : Nat :=
  (rs.filter (fun r =>
    decide (r.breachYear < currentYear - 2) &&
      decide (currentYear - 4 ≤ r.breachYear))).length

/-- The trend insight:
`"increasing" if recent_count > previous_count else "decreasing"`. -/
def trendText (rs : List BreachRecord) (currentYear : Int) : String :=
  if previousCount rs currentYear < recentCount rs currentYear then "increasing"
  else "decreasing"

/-- C3: the trend insight compares the count of filtered records with
`breachYear ≥ currentYear - 2` against the count with `breachYear` in
`[currentYear - 4, currentYear - 2)`, and returns `increasing` exactly when
recent > previous and `decreasing` otherwise — in particular, equal recent
and previous counts are classified as `decreasing`. -/
theorem trend_tie_is_decreasing (rs : List BreachRecord) (currentYear : Int) :
    (trendText rs currentYear = "increasing" ↔
      previousCount rs currentYear < recentCount rs currentYear) ∧
    (recentCount rs currentYear = previousCount rs currentYear →
      trendText rs currentYear = "decreasing") := by
  constructor
  · unfold trendText
    split
    · rename_i h
      exact ⟨fun _ => h, fun _ => rfl⟩
    · rename_i h
      refine ⟨fun he => ?_, fun hlt => absurd hlt h⟩
      exact absurd he (by decide)
  · intro he
    unfold trendText
    rw [if_neg]
    omega

/-- Witness for C3: an empty filtered set has equal (zero) recent and
previous counts, and `trend_tie_is_decreasing` classifies it as
`decreasing`. -/
theorem trend_tie_is_decreasing_witness :
    recentCount [] 2026 = previousCount [] 2026 ∧ trendText [] 2026 = "decreasing" :=
  ⟨rfl, (trend_tie_is_decreasing [] 2026).2 rfl⟩

/-- The class cells of a list of exploded rows, with `NaN` cells dropped —
`value_counts()` ignores `NaN` entries. -/
def classValues (rows : List (BreachRecord × Option String)) : List String :=
  rows.filterMap (fun p => p.2)

/-- The `data_class_counts` table:
`filtered_data_classes_df['DataClasses'].value_counts()`. -/
def dataClassCounts (rows : List (BreachRecord × Option String)) : List (String × Nat) :=
  countBy (classValues rows)

/-- The most-common-data-class insight as computed in `app.py` line 684:
`data_class_counts.iloc[0]['DataClass'] if not data_class_counts.empty
else "N/A"`. -/
def mostCommonDataClassApp (rows : List (BreachRecord × Option String)) : String :=
  match dataClassCounts rows with
  | [] => "N/A"
  | p :: _ => p.1

/-- The most-common-data-class insight as computed in `Home.py` line 319:
`data_class_counts.iloc[0]['DataClass']` with no emptiness guard —
`iloc[0]` raises `IndexError` on an empty table, modelled as `none`. -/
def mostCommonDataClassHome (rows : List (BreachRecord × Option String)) : Option String :=
  match dataClassCounts rows with
  | [] => none
  | p :: _ => some p.1

/-- `filtered_df.nlargest(n, 'PwnCount')`: the top `n` records by
`PwnCount`, descending, ties kept in original order (`keep='first'`). -/
def topNByPwn (rs : List BreachRecord) (n : Nat) : List BreachRecord :=
  (sortDesc (fun r => r.pwnCount) rs).take n

/-- The largest-breach insight of `app.py` line 687:
`filtered_df.nlargest(1, 'PwnCount')['Name'].iloc[0] if not
filtered_df.empty else "N/A"`. -/
def largestBreachNameApp (rs : List BreachRecord) : String :=
  match topNByPwn rs 1 with
  | [] => "N/A"
  | r :: _ => r.name

/-- The largest-breach count of `app.py` line 688, `0` when empty. -/
def largestBreachCountApp (rs : List BreachRecord) : Nat :=
  match topNByPwn rs 1 with
  | [] => 0
  | r :: _ => r.pwnCount

/-- The largest-breach insight of `Home.py` line 322:
`filtered_df.loc[filtered_df['PwnCount'].idxmax(), 'Name']` with no
emptiness guard — `idxmax` raises `ValueError` on an empty series,
modelled as `none`; on a non-empty series it returns the first index
attaining the maximum. -/
def largestBreachNameHome (rs : List BreachRecord) : Option String :=
  match sortDesc (fun r => r.pwnCount) rs with
  | [] => none
  | r :: _ => some r.name

/-- The verified-breaches percentage of `app.py` line 239:
`(verified_count / len(filtered_df)) * 100 if len(filtered_df) > 0 else 0`. -/
def verifiedPercentage (rs : List BreachRecord) : ℚ :=
  if 0 < rs.length then
    ((rs.filter (fun r => r.isVerified)).length : ℚ) / (rs.length : ℚ) * 100
  else 0

/-- The sensitive-breaches percentage of `app.py` line 247, same guard. -/
def sensitivePercentage (rs : List BreachRecord) : ℚ :=
  if 0 < rs.length then
    ((rs.filter (fun r => r.isSensitive)).length : ℚ) / (rs.length : ℚ) * 100
  else 0

/-- Counterexample for C1: on an empty filtered set, `Home.py`'s
most-common-data-class and largest-breach insights (which lack the `"N/A"`
guard that `app.py` has) produce no value at all — `iloc[0]` raises
`IndexError` and `idxmax` raises `ValueError`, modelled as `none` — so the
most common data class is not the sentinel `"N/A"` and an error is
raised. -/
theorem empty_insights_home_counterexample :
    mostCommonDataClassHome [] = none ∧
    largestBreachNameHome [] = none ∧
    mostCommonDataClassHome [] ≠ some "N/A" := by
  refine ⟨rfl, rfl, by decide⟩

/-- C1 (amended): on an empty filtered record set, `countBy` returns an
empty frequency table, `topN` returns an empty list, and in `app.py` the
insight pipeline returns the sentinel `"N/A"` for the most common data
class and the largest breach, `0` for the largest-breach count, and the
zero-guarded percentages return `0` — no division by zero.  (`Home.py`'s
unguarded insight computations instead raise, see the counterexample.) -/
theorem empty_aggregations_app :
    countBy [] = [] ∧
    topNByPwn [] 10 = [] ∧
    dataClassCounts [] = [] ∧
    mostCommonDataClassApp [] = "N/A" ∧
    largestBreachNameApp [] = "N/A" ∧
    largestBreachCountApp [] = 0 ∧
    verifiedPercentage [] = 0 ∧
    sensitivePercentage [] = 0 := by
  refine ⟨rfl, rfl, rfl, rfl, rfl, rfl, ?_, ?_⟩ <;>
    · simp [verifiedPercentage, sensitivePercentage]

/-- Sum of the counts of a (shown) frequency table, as a rational —
`top_data_classes['Count'].sum()`. -/
def shownTotal (counts : List (String × Nat)) : ℚ :=
  (((counts.map Prod.snd).sum : ℕ) : ℚ)

/-- The percentage column of `Home.py` line 316 / `app.py` line 263:
`top_data_classes['Count'] / top_data_classes['Count'].sum() * 100`, each
count divided by the sum of the counts of the shown subset.  The display
additionally rounds to one decimal (`.round(1)`); the exact values are kept
here and the rounding never moves a value by more than 0.05. -/
def percentOfShown (counts : List (String × Nat)) : List (String × ℚ) :=
  counts.map (fun p => (p.1, (p.2 : ℚ) / shownTotal counts * 100))

/-- The top-10 data-class table with its percentage column
(`data_class_counts.head(10)` and then `percentOfShown`). -/
def topDataClassesTable (rows : List (BreachRecord × Option String)) : List (String × ℚ) :=
  percentOfShown ((dataClassCounts rows).take 10)

/-- The percentage column of `pages/2_Data_Classes_Analysis.py` line 75:
`data_class_counts['Count'] / len(filtered_df) * 100` — each count divided
by the NUMBER OF FILTERED RECORDS, not by the sum of the shown counts. -/
def pages2PercentTable (rows : List (BreachRecord × Option String))
    (fd : List BreachRecord) : List (String × ℚ) :=
  (dataClassCounts rows).map (fun p => (p.1, (p.2 : ℚ) / (fd.length : ℚ) * 100))

/-- Sample record for the percentage counterexample: a single breach with
two data classes. -/
def recP : BreachRecord :=
  { name := "Pfield"
    domain := "pfield.net"
    breachDate := 300
    addedDate := 310
    pwnCount := 1000
    isVerified := true
    isSensitive := false
    breachYear := 2021
    dataClasses := ["Passwords", "Emails"] }

/-- Counterexample for C2: `pages/2_Data_Classes_Analysis.py` divides each
count by `len(filtered_df)`, not by the sum of the shown counts.  For a
filtered set holding the single record `recP` with two data classes, every
class gets `1/1*100 = 100%` (where dividing by the shown sum would give
50%), and the displayed percentages sum to 200, not 100. -/
theorem pages2_percentage_counterexample :
    pages2PercentTable (explodeClasses [recP]) [recP] =
      [("Passwords", 100), ("Emails", 100)] ∧
    percentOfShown (dataClassCounts (explodeClasses [recP])) =
      [("Passwords", 50), ("Emails", 50)] ∧
    ((pages2PercentTable (explodeClasses [recP]) [recP]).map Prod.snd).sum ≠ 100 := by
  have h1 : dataClassCounts (explodeClasses [recP]) = [("Passwords", 1), ("Emails", 1)] := rfl
  refine ⟨?_, ?_, ?_⟩
  · unfold pages2PercentTable
    rw [h1]
    norm_num
  · unfold percentOfShown shownTotal
    rw [h1]
    norm_num
  · unfold pages2PercentTable
    rw [h1]
    norm_num

theorem sum_map_pct (T : ℚ) :
    ∀ l : List (String × Nat),
      (l.map (fun p => (p.2 : ℚ) / T * 100)).sum =
        (((l.map Prod.snd).sum : ℕ) : ℚ) / T * 100 := by
  intro l
  induction l with
  | nil => simp
  | cons p rest ih =>
    simp only [List.map_cons, List.sum_cons, ih]
    push_cast
    ring

theorem percentOfShown_snd (counts : List (String × Nat)) :
    (percentOfShown counts).map Prod.snd =
      counts.map (fun p => (p.2 : ℚ) / shownTotal counts * 100) := by
  unfold percentOfShown
  rw [List.map_map]
  rfl

/-- C2 (amended): the top-10 data-class tables of `Home.py` and `app.py`
divide each count by the sum of the counts of the shown subset, so their
displayed percentages sum to exactly 100 whenever the table is non-empty.
(The full-table percentage column of `pages/2_Data_Classes_Analysis.py`
instead divides by the number of filtered records and need not sum to 100,
see the counterexample.) -/
theorem topTable_percentages_sum_100 (rows : List (BreachRecord × Option String))
    (h : topDataClassesTable rows ≠ []) :
    ((topDataClassesTable rows).map Prod.snd).sum = 100 := by
  have hne : (dataClassCounts rows).take 10 ≠ [] := by
    intro hnil
    apply h
    unfold topDataClassesTable percentOfShown
    rw [hnil]
    rfl
  have hpos : 0 < (((dataClassCounts rows).take 10).map Prod.snd).sum := by
    cases hcc : (dataClassCounts rows).take 10 with
    | nil => exact absurd hcc hne
    | cons p restc =>
      have hmem : p ∈ (dataClassCounts rows).take 10 := by
        rw [hcc]; exact List.mem_cons_self _ _
      have hp : 1 ≤ p.2 := countBy_pos _ p (List.take_subset 10 _ hmem)
      simp only [List.map_cons, List.sum_cons]
      omega
  have hT : shownTotal ((dataClassCounts rows).take 10) ≠ 0 := by
    unfold shownTotal
    have : (0 : ℚ) < (((((dataClassCounts rows).take 10).map Prod.snd).sum : ℕ) : ℚ) := by
      exact_mod_cast hpos
    exact ne_of_gt this
  rw [show topDataClassesTable rows =
    percentOfShown ((dataClassCounts rows).take 10) from rfl]
  rw [percentOfShown_snd, sum_map_pct]
  rw [show ((((((dataClassCounts rows).take 10).map Prod.snd).sum : ℕ)) : ℚ) =
    shownTotal ((dataClassCounts rows).take 10) from rfl]
  rw [div_self hT, one_mul]

/-- Witness for C2 (amended): for the one-record store the top-10 table is
non-empty and `topTable_percentages_sum_100` gives a percentage sum of
exactly 100 (two classes at 50% each). -/
theorem topTable_percentages_sum_100_witness :
    topDataClassesTable (explodeClasses [recP]) ≠ [] ∧
    ((topDataClassesTable (explodeClasses [recP])).map Prod.snd).sum = 100 :=
  ⟨by decide, topTable_percentages_sum_100 (explodeClasses [recP]) (by decide)⟩

/-- The fixed high-risk data classes of `app.py` lines 467-470. -/
def highRiskClasses : List String :=
  ["Passwords", "Credit cards", "Social security numbers", "Financial data",
    "Health records", "Dates of birth", "Phone numbers",
    "Security questions and answers"]

/-- The `SizeScore` column (`app.py` line 473): `pd.cut(PwnCount,
bins=[0, 10000, 1000000, 50000000, inf], labels=[1, 2, 3, 4]).astype(int)`.
A `PwnCount` of `0` falls outside every bin giving `NaN`, on which
`.astype(int)` raises `ValueError` — modelled as `none`. -/
def sizeScore (pwnCount : Nat) : Option Nat :=
  if pwnCount = 0 then none
  else if pwnCount ≤ 10000 then some 1
  else if pwnCount ≤ 1000000 then some 2
  else if pwnCount ≤ 50000000 then some 3
  else some 4

/-- The `SensitiveScore` column: `IsSensitive.astype(int) * 3`. -/
def sensitiveScore (r : BreachRecord) : Nat :=
  if r.isSensitive then 3 else 0

/-- The `HighRiskDataCount` column:
`sum(1 for item in DataClasses if item in high_risk_classes)`. -/
def highRiskDataCount (r : BreachRecord) : Nat :=
  (r.dataClasses.filter (fun c => decide (c ∈ highRiskClasses))).length

/-- The `DataClassScore` column: `min(HighRiskDataCount, 3)`. -/
def dataClassScore (r : BreachRecord) : Nat :=
  min (highRiskDataCount r) 3

/-- The `SeverityScore` column: `SizeScore + SensitiveScore +
DataClassScore` capped with `min(x, 10)`. -/
def severityScore (r : BreachRecord) : Option Nat :=
  (sizeScore r.pwnCount).map
    (fun s => min (s + sensitiveScore r + dataClassScore r) 10)

/-- The `SeverityCategory` column: `pd.cut(SeverityScore, bins=[0, 3, 6,
10], labels=['Low', 'Medium', 'High'])`; a score of exactly `0` (or above
`10`) falls outside every bin. -/
def severityCategory (score : Nat) : Option String :=
  if score = 0 then none
  else if score ≤ 3 then some "Low"
  else if score ≤ 6 then some "Medium"
  else if score ≤ 10 then some "High"
  else none

/-- Severity category of one record: the bucket of its severity score. -/
def recordSeverityCategory (r : BreachRecord) : Option String :=
  (severityScore r).bind severityCategory

/-- Restatement of the spec's severity formula, written from the spec text
for the refinement comparison with `severityScore`: `min(10, sizeScore +
sensitiveScore + dataClassScore)` with `sizeScore ∈ {1,2,3,4}` by the size
bucket edges, `sensitiveScore = 3` iff sensitive, `dataClassScore = min(3,
number of data classes in the high-risk set)`.  Meaningful for records
with at least one affected account (the size buckets do not cover 0). -/
def specSizeScore (n : Nat) : Nat :=
  if n ≤ 10000 then 1
  else if n ≤ 1000000 then 2
  else if n ≤ 50000000 then 3
  else 4

/-- Spec-side severity score; see `specSizeScore`. -/
def specSeverity (r : BreachRecord) : Nat :=
  min 10 (specSizeScore r.pwnCount + (if r.isSensitive then 3 else 0) +
    min 3 (r.dataClasses.countP (fun c => decide (c ∈ highRiskClasses))))

/-- The worked example of the spec: `pwnCount = 2_000_000`,
`isSensitive = true`, `dataClasses = ["Passwords","Usernames","Credit
cards"]`. -/
def exampleRec : BreachRecord :=
  { name := "Example"
    domain := "example.com"
    breachDate := 400
    addedDate := 410
    pwnCount := 2000000
    isVerified := true
    isSensitive := true
    breachYear := 2022
    dataClasses := ["Passwords", "Usernames", "Credit cards"] }

/-- C4: for every record with at least one affected account, the severity
score equals `min(10, sizeScore + sensitiveScore + dataClassScore)` with
the components as the spec defines them; in particular the spec's worked
example (`pwnCount = 2000000`, sensitive, two high-risk classes out of
three) scores 8 and is categorised `High`. -/
theorem severity_matches_spec :
    (∀ r : BreachRecord, 1 ≤ r.pwnCount → severityScore r = some (specSeverity r)) ∧
    severityScore exampleRec = some 8 ∧
    recordSeverityCategory exampleRec = some "High" := by
  refine ⟨?_, by decide, by decide⟩
  intro r h
  have h0 : ¬ r.pwnCount = 0 := by omega
  unfold severityScore sizeScore specSeverity specSizeScore sensitiveScore
  unfold dataClassScore highRiskDataCount
  rw [List.countP_eq_length_filter, if_neg h0]
  split_ifs <;> simp [Nat.min_comm]

/-- Witness for C4: the universal part of `severity_matches_spec`
instantiated at the spec's worked example. -/
theorem severity_matches_spec_witness :
    1 ≤ exampleRec.pwnCount ∧ severityScore exampleRec = some (specSeverity exampleRec) :=
  ⟨by decide, severity_matches_spec.1 exampleRec (by decide)⟩

theorem severityCategory_total (s : Nat) (h1 : 1 ≤ s) (h10 : s ≤ 10) :
    severityCategory s = some "Low" ∨ severityCategory s = some "Medium" ∨
      severityCategory s = some "High" := by
  unfold severityCategory
  split_ifs with hz h3 h6
  · exact absurd hz (by omega)
  · exact Or.inl rfl
  · exact Or.inr (Or.inl rfl)
  · exact Or.inr (Or.inr rfl)

/-- C9: for every record with `pwnCount ≥ 1` the severity score is defined
and lies in `[1, 10]` (the size component contributes at least 1), so the
severity category is always one of `Low`, `Medium`, `High` and the
unbucketed score-0 case never occurs; for `pwnCount = 0` the severity
computation is undefined (`pd.cut` yields `NaN` and `.astype(int)`
raises). -/
theorem severity_defined_range (r : BreachRecord) :
    (1 ≤ r.pwnCount → ∃ s, severityScore r = some s ∧ 1 ≤ s ∧ s ≤ 10 ∧
      (recordSeverityCategory r = some "Low" ∨
        recordSeverityCategory r = some "Medium" ∨
        recordSeverityCategory r = some "High")) ∧
    (r.pwnCount = 0 → severityScore r = none) := by
  constructor
  · intro h
    have h0 : ¬ r.pwnCount = 0 := by omega
    obtain ⟨k, hk, hk1⟩ : ∃ k, sizeScore r.pwnCount = some k ∧ 1 ≤ k := by
      unfold sizeScore
      rw [if_neg h0]
      split_ifs <;> exact ⟨_, rfl, by omega⟩
    have hs1 : 1 ≤ min (k + sensitiveScore r + dataClassScore r) 10 := by
      rw [le_min_iff]
      omega
    have hs10 : min (k + sensitiveScore r + dataClassScore r) 10 ≤ 10 :=
      min_le_right _ _
    refine ⟨min (k + sensitiveScore r + dataClassScore r) 10, ?_, hs1, hs10, ?_⟩
    · unfold severityScore
      rw [hk]
      rfl
    · have hrw : recordSeverityCategory r =
        severityCategory (min (k + sensitiveScore r + dataClassScore r) 10) := by
        unfold recordSeverityCategory severityScore
        rw [hk]
        rfl
      rw [hrw]
      exact severityCategory_total _ hs1 hs10
  · intro h0
    unfold severityScore sizeScore
    rw [if_pos h0]
    rfl

/-- Witness for C9: `severity_defined_range` applied to the sample record
`recA` (5000 affected accounts). -/
theorem severity_defined_range_witness :
    ∃ s, severityScore recA = some s ∧ 1 ≤ s ∧ s ≤ 10 ∧
      (recordSeverityCategory recA = some "Low" ∨
        recordSeverityCategory recA = some "Medium" ∨
        recordSeverityCategory recA = some "High") :=
  (severity_defined_range recA).1 (by decide)

/-- Character-list helper: does `pat` occur at the head of `s`? -/
def matchesAt : List Char → List Char → Bool
  | [], _ => true
  | _ :: _, [] => false
  | a :: as, b :: bs => a == b && matchesAt as bs

/-- Character-list helper: does `pat` occur anywhere inside `s`? -/
def hasSubSeq (pat : List Char) : List Char → Bool
  | [] => pat.isEmpty
  | b :: bs => matchesAt pat (b :: bs) || hasSubSeq pat bs

/-- `Series.str.contains(term, case=False)` for one cell: case-insensitive
substring containment. -/
def containsCI (term s : String) : Bool :=
  hasSubSeq (term.toList.map Char.toLower) (s.toList.map Char.toLower)

/-- Fuel-indexed keep-first deduplication; the fuel only bounds the
recursion depth and `l.length` is always enough, since each step removes
the head. -/
def dedupFuel : Nat → List BreachRecord → List BreachRecord
  | 0, _ => []
  | _ + 1, [] => []
  | fuel + 1, r :: rest => r :: dedupFuel fuel (rest.filter (fun q => decide (q ≠ r)))

/-- `DataFrame.drop_duplicates()`: keep the first occurrence of every row,
preserving order. -/
def dedupFirst (l : List BreachRecord) : List BreachRecord :=
  dedupFuel l.length l

theorem mem_of_mem_dedupFuel :
    ∀ (fuel : Nat) (l : List BreachRecord) (r : BreachRecord),
      r ∈ dedupFuel fuel l → r ∈ l := by
  intro fuel
  induction fuel with
  | zero => intro l r h; simp [dedupFuel] at h
  | succ f ih =>
    intro l r h
    cases l with
    | nil => simp [dedupFuel] at h
    | cons a rest =>
      simp only [dedupFuel, List.mem_cons] at h
      rcases h with h | h
      · subst h; exact List.mem_cons_self _ _
      · exact List.mem_cons_of_mem _ (List.mem_of_mem_filter (ih _ r h))

theorem mem_of_mem_dedupFirst {l : List BreachRecord} {r : BreachRecord}
    (h : r ∈ dedupFirst l) : r ∈ l :=
  mem_of_mem_dedupFuel l.length l r h

/-- The `name_domain_matches` of `app.py` lines 721-724: records of the
FILTERED set whose `Name` or `Domain` contains the search term
case-insensitively. -/
def nameDomainMatches (rs : List BreachRecord) (c : FilterCriteria)
    (term : String) : List BreachRecord :=
  (filteredRecords rs c).filter
    (fun r => containsCI term r.name || containsCI term r.domain)

/-- The names of the `data_class_matches` of `app.py` lines 727-729: rows
of the FULL (unfiltered) exploded class table whose class cell contains the
search term.  (A `NaN` class cell does not match.) -/
def classMatchNames (rs : List BreachRecord) (term : String) : List String :=
  ((explodeClasses rs).filter (fun p =>
    match p.2 with
    | some cl => containsCI term cl
    | none => false)).map (fun p => p.1.name)

/-- The second component of the concatenation at `app.py` line 734:
`filtered_df[filtered_df['Name'].isin(data_class_matches['Name'])]`. -/
def classMatchRecords (rs : List BreachRecord) (c : FilterCriteria)
    (term : String) : List BreachRecord :=
  (filteredRecords rs c).filter
    (fun r => decide (r.name ∈ classMatchNames rs term))

/-- The `search_results` of `app.py` lines 732-735:
`pd.concat([name_domain_matches, filtered_df[...isin...]]).drop_duplicates()`. -/
def searchResults (rs : List BreachRecord) (c : FilterCriteria)
    (term : String) : List BreachRecord :=
  dedupFirst (nameDomainMatches rs c term ++ classMatchRecords rs c term)

/-- C10: every record returned by the free-text search is a member of the
currently filtered record set — although the data-class substring match is
evaluated over the full unfiltered class-row table, both concatenated
components are selections from `filtered_df`, so search never resurfaces a
record excluded by the active filters. -/
theorem search_subset_filtered (rs : List BreachRecord) (c : FilterCriteria)
    (term : String) (r : BreachRecord) (h : r ∈ searchResults rs c term) :
    r ∈ filteredRecords rs c := by
  unfold searchResults at h
  have h1 := mem_of_mem_dedupFirst h
  rcases List.mem_append.mp h1 with h1 | h1
  · exact List.mem_of_mem_filter h1
  · exact List.mem_of_mem_filter h1

/-- Witness for C10: searching the two-record store for `"ado"` returns
`recA`, and `search_subset_filtered` places it in the filtered set. -/
theorem search_subset_filtered_witness :
    recA ∈ filteredRecords [recA, recB] defaultCriteria :=
  search_subset_filtered [recA, recB] defaultCriteria "ado" recA (by decide)

end DataBreach
